import Mathlib

/-!
Shallow embedding of the date-parsing, rule-classification and record-joining
logic of the repository (files numero_factura_provincia.py, balance.py and
codigo_busca_prov.py), together with theorems settling the specification
claims about them.

Modelling conventions:
* Python strings are Lean String / List Char; the relevant alphabets are
  ASCII plus the lowercase accented vowels used by the Spanish month regex.
* Python ints are Nat (all numbers involved are nonnegative).
* datetime values are the DateTime structure below (microseconds are never
  produced by the modelled code paths and are omitted).
* A Python function that can raise an uncaught exception is modelled with
  Except Unit; Except.ok none is Python None, Except.error () is an
  uncaught exception escaping the function.
-/

/-- ASCII decimal digit, the characters matched by the regex class \d on the
inputs of interest. -/
def isDigitC (c : Char) : Bool := 48 ≤ c.toNat && c.toNat ≤ 57

/-- Whitespace as matched by str.strip / str.split and the regex class \s
(space, tab, newline, carriage return, vertical tab, form feed). -/
def isSpaceC (c : Char) : Bool :=
  c = ' ' || c = '\t' || c = '\n' || c = '\r' || c = Char.ofNat 11 || c = Char.ofNat 12

/-- The character class [a-záéíóú] of the long-form month regex. -/
def isLetterES (c : Char) : Bool :=
  (97 ≤ c.toNat && c.toNat ≤ 122) || c = 'á' || c = 'é' || c = 'í' || c = 'ó' || c = 'ú'

/-- Word characters for the regex word boundary \b (letters, digits,
underscore; the accented vowels are word characters in Python re). -/
def isWordC (c : Char) : Bool :=
  isLetterES c || isDigitC c || c = '_' || (65 ≤ c.toNat && c.toNat ≤ 90)

/-- The separator class [/\-.] of the numeric date regex. -/
def isSepC (c : Char) : Bool := c = '/' || c = '-' || c = '.'

/-- Numeric value of an ASCII digit character. -/
def digToNat (c : Char) : Nat := c.toNat - 48

/-- Decimal digit character of n mod 10. -/
def digitChar10 (n : Nat) : Char :=
  match n % 10 with
  | 0 => '0' | 1 => '1' | 2 => '2' | 3 => '3' | 4 => '4'
  | 5 => '5' | 6 => '6' | 7 => '7' | 8 => '8' | _ => '9'

/-- int() on a string of ASCII digits. -/
def natOfDigits (ds : List Char) : Nat := ds.foldl (fun n c => 10 * n + digToNat c) 0

/-- str.lower restricted to ASCII (every uppercase character reaching the
modelled code paths is ASCII). -/
def pyLowerChar (c : Char) : Char :=
  if 65 ≤ c.toNat ∧ c.toNat ≤ 90 then Char.ofNat (c.toNat + 32) else c

/-- str.upper restricted to ASCII. -/
def pyUpperChar (c : Char) : Char :=
  if 97 ≤ c.toNat ∧ c.toNat ≤ 122 then Char.ofNat (c.toNat - 32) else c

/-- str.strip: drop leading and trailing whitespace. -/
def pyStrip (cs : List Char) : List Char :=
  ((cs.dropWhile isSpaceC).reverse.dropWhile isSpaceC).reverse

/-- Whether a list of characters is exactly what the anchored regex
\b(hs|hrs|hr|h)\.?$ can match, i.e. one of the eight suffix forms. -/
def isHsSuffix : List Char → Bool
  | ['h', 's'] => true
  | ['h', 'r', 's'] => true
  | ['h', 'r'] => true
  | ['h'] => true
  | ['h', 's', '.'] => true
  | ['h', 'r', 's', '.'] => true
  | ['h', 'r', '.'] => true
  | ['h', '.'] => true
  | _ => false

/-- re.sub of the anchored pattern \b(hs|hrs|hr|h)\.?$ with the empty string:
scan left to right; at the first position preceded by a non-word character
whose whole remaining suffix is one of the eight forms, delete that suffix.
The Boolean argument records whether the previous character was a word
character (false at the start of the string). -/
def subHs (prevWord : Bool) : List Char → List Char
  | [] => []
  | c :: rest =>
      if !prevWord && isHsSuffix (c :: rest) then []
      else c :: subHs (isWordC c) rest

/-- str.replace(",", " "). -/
def commaToSpace (c : Char) : Char := if c = ',' then ' ' else c

/-- str.replace("  ", " "): one left-to-right pass over non-overlapping
occurrences of two spaces. -/
def collapse2 : List Char → List Char
  | ' ' :: ' ' :: rest => ' ' :: collapse2 rest
  | c :: rest => c :: collapse2 rest
  | [] => []

/-- The cleanup prefix of parse_fecha_universal:
t = str(texto).strip().lower(); t = re.sub(hs-pattern, "", t).strip();
t = t.replace(",", " ").replace("  ", " "). -/
def cleanFecha (cs : List Char) : List Char :=
  collapse2 (List.map commaToSpace (pyStrip (subHs false (pyStrip (List.map pyLowerChar cs)))))

/-- Gregorian leap year, as in Python's datetime. -/
def esBisiesto (y : Nat) : Bool := (y % 4 = 0 && y % 100 ≠ 0) || y % 400 = 0

/-- Days in a month, as validated by the datetime constructor. -/
def daysInMonth (y m : Nat) : Nat :=
  if m = 2 then (if esBisiesto y then 29 else 28)
  else if m = 4 || m = 6 || m = 9 || m = 11 then 30
  else 31

/-- The value produced by a successful parse: a datetime without
microseconds (the modelled code paths never set them). -/
structure DateTime where
  year : Nat
  month : Nat
  day : Nat
  hour : Nat
  minute : Nat
  second : Nat
deriving DecidableEq, Repr

/-- The date part of datetime.fromisoformat: exactly four digits, dash, two
digits, dash, two digits, with the calendar ranges checked by the datetime
constructor (year at least MINYEAR = 1). -/
def isoDateVal (y1 y2 y3 y4 s1 m1 m2 s2 d1 d2 : Char) : Option (Nat × Nat × Nat) :=
  if isDigitC y1 && isDigitC y2 && isDigitC y3 && isDigitC y4 &&
     (s1 = '-') && isDigitC m1 && isDigitC m2 && (s2 = '-') &&
     isDigitC d1 && isDigitC d2 then
    let y := natOfDigits [y1, y2, y3, y4]
    let m := natOfDigits [m1, m2]
    let d := natOfDigits [d1, d2]
    if 1 ≤ y && 1 ≤ m && m ≤ 12 && 1 ≤ d && d ≤ daysInMonth y m then
      some (y, m, d)
    else none
  else none

/-- The time part of datetime.fromisoformat (Python < 3.11 grammar):
HH, HH:MM or HH:MM:SS with two-digit fields. Fractional seconds and UTC
offsets are outside the modelled fragment. -/
def isoTimeVal : List Char → Option (Nat × Nat × Nat)
  | [h1, h2] =>
      if isDigitC h1 && isDigitC h2 then
        let h := natOfDigits [h1, h2]
        if h ≤ 23 then some (h, 0, 0) else none
      else none
  | [h1, h2, ':', n1, n2] =>
      if isDigitC h1 && isDigitC h2 && isDigitC n1 && isDigitC n2 then
        let h := natOfDigits [h1, h2]
        let n := natOfDigits [n1, n2]
        if h ≤ 23 && n ≤ 59 then some (h, n, 0) else none
      else none
  | [h1, h2, ':', n1, n2, ':', e1, e2] =>
      if isDigitC h1 && isDigitC h2 && isDigitC n1 && isDigitC n2 &&
         isDigitC e1 && isDigitC e2 then
        let h := natOfDigits [h1, h2]
        let n := natOfDigits [n1, n2]
        let e := natOfDigits [e1, e2]
        if h ≤ 23 && n ≤ 59 && e ≤ 59 then some (h, n, e) else none
      else none
  | _ => none

/-- datetime.fromisoformat (Python < 3.11): ten-character date, then
optionally one arbitrary separator character and a time part. -/
def pyFromisoformat (cs : List Char) : Option DateTime :=
  match cs with
  | [y1, y2, y3, y4, s1, m1, m2, s2, d1, d2] =>
      match isoDateVal y1 y2 y3 y4 s1 m1 m2 s2 d1 d2 with
      | some (y, m, d) => some ⟨y, m, d, 0, 0, 0⟩
      | none => none
  | y1 :: y2 :: y3 :: y4 :: s1 :: m1 :: m2 :: s2 :: d1 :: d2 :: _sep :: rest =>
      match isoDateVal y1 y2 y3 y4 s1 m1 m2 s2 d1 d2 with
      | some (y, m, d) =>
          match isoTimeVal rest with
          | some (h, n, e) => some ⟨y, m, d, h, n, e⟩
          | none => none
      | none => none
  | _ => none

/-- First alternative of a backtracking choice list that succeeds. -/
def firstSome {α β : Type} (f : α → Option β) : List α → Option β
  | [] => none
  | x :: xs =>
      match f x with
      | some b => some b
      | none => firstSome f xs

/-- Greedy candidates for a counted digit group \d{m..M} at the head of cs:
the pairs (int value of the taken digits, remaining characters), longest
take first, down to m digits, exactly as a backtracking engine tries them. -/
def greedyCounts (m M : Nat) (cs : List Char) : List (Nat × List Char) :=
  let r := (cs.takeWhile isDigitC).length
  (List.range' m (min M r + 1 - m)).reverse.map (fun k => (natOfDigits (cs.take k), cs.drop k))

/-- The optional group (de)?: greedily try to consume the literal "de",
backtracking to consuming nothing. -/
def tryDe {α : Type} (cs : List Char) (k : List Char → Option α) : Option α :=
  match cs with
  | 'd' :: 'e' :: rest =>
      match k rest with
      | some x => some x
      | none => k cs
  | _ => k cs

/-- The optional trailing-time group (?:\s+(\d{1,2}:\d{2}))?: at least one
whitespace character, a one-or-two-digit hour (greedy), a colon and exactly
two minute digits. Returns none both when the group fails and when it is
skipped (the Python code treats an absent group the same way). -/
def matchTimeOpt (cs : List Char) : Option (Nat × Nat) :=
  if (cs.takeWhile isSpaceC).length = 0 then none
  else
    let rest := cs.dropWhile isSpaceC
    firstSome (fun hr =>
      match hr.2 with
      | ':' :: n1 :: n2 :: _ =>
          if isDigitC n1 && isDigitC n2 then some (hr.1, natOfDigits [n1, n2]) else none
      | _ => none) (greedyCounts 1 2 rest)

/-- Greedy give-back candidates for the one-or-more group ([a-záéíóú]+):
take k letters from the maximal run, longest first, at least one. -/
def letterTakes (cs : List Char) : List Nat :=
  (List.range' 1 (cs.takeWhile isLetterES).length).reverse

/-- Attempt the long-form pattern
(\d{1,2})\s*(de)?\s*([a-záéíóú]+)\s*(de)?\s*(\d{2,4})(?:\s+(\d{1,2}:\d{2}))?
anchored at the start of cs, with Python's backtracking preferences.
Groups returned: (day, month text, year, optional hour and minute).
The \s* pieces are deterministic because whitespace is disjoint from every
class that can follow them. -/
def matchLongAt (cs : List Char) : Option (Nat × List Char × Nat × Option (Nat × Nat)) :=
  firstSome (fun dia =>
    let r2 := dia.2.dropWhile isSpaceC
    tryDe r2 (fun r3 =>
      let r4 := r3.dropWhile isSpaceC
      firstSome (fun k =>
        let mesTxt := r4.take k
        let r5 := (r4.drop k).dropWhile isSpaceC
        tryDe r5 (fun r6 =>
          let r7 := r6.dropWhile isSpaceC
          match greedyCounts 2 4 r7 with
          | [] => none
          | anio :: _ => some (dia.1, mesTxt, anio.1, matchTimeOpt anio.2)))
        (letterTakes r4)))
    (greedyCounts 1 2 cs)

/-- re.search position scan: try a match anchored at every position, left to
right, returning the leftmost success. -/
def searchFrom {α : Type} (m : List Char → Option α) : List Char → Option α
  | [] => m []
  | c :: cs =>
      match m (c :: cs) with
      | some x => some x
      | none => searchFrom m cs

/-- re.search of the long-form pattern. -/
def searchLong (cs : List Char) : Option (Nat × List Char × Nat × Option (Nat × Nat)) :=
  searchFrom matchLongAt cs

/-- Attempt the numeric pattern
(\d{1,4})[\/\-.](\d{1,2})[\/\-.](\d{1,4})(?:\s+(\d{1,2}:\d{2}))?
anchored at the start of cs. Groups: (a, b, c, optional hour and minute). -/
def matchNumAt (cs : List Char) : Option (Nat × Nat × Nat × Option (Nat × Nat)) :=
  firstSome (fun a =>
    match a.2 with
    | s1 :: r2 =>
        if isSepC s1 then
          firstSome (fun b =>
            match b.2 with
            | s2 :: r4 =>
                if isSepC s2 then
                  match greedyCounts 1 4 r4 with
                  | [] => none
                  | c :: _ => some (a.1, b.1, c.1, matchTimeOpt c.2)
                else none
            | [] => none) (greedyCounts 1 2 r2)
        else none
    | [] => none) (greedyCounts 1 4 cs)

/-- re.search of the numeric pattern. -/
def searchNum (cs : List Char) : Option (Nat × Nat × Nat × Option (Nat × Nat)) :=
  searchFrom matchNumAt cs

/-- The Spanish month table MESES_ES. -/
def MESES_ES : List (String × Nat) :=
  [("enero", 1), ("ene", 1),
   ("febrero", 2), ("feb", 2),
   ("marzo", 3), ("mar", 3),
   ("abril", 4), ("abr", 4),
   ("mayo", 5),
   ("junio", 6), ("jun", 6),
   ("julio", 7), ("jul", 7),
   ("agosto", 8), ("ago", 8),
   ("septiembre", 9), ("setiembre", 9), ("sep", 9), ("set", 9),
   ("octubre", 10), ("oct", 10),
   ("noviembre", 11), ("nov", 11),
   ("diciembre", 12), ("dic", 12)]

/-- MESES_ES.get(mes_txt[:3], MESES_ES.get(mes_txt)): look up the first
three letters, falling back to the full text. -/
def resolveMes (mesTxt : List Char) : Option Nat :=
  match MESES_ES.lookup (String.mk (mesTxt.take 3)) with
  | some m => some m
  | none => MESES_ES.lookup (String.mk mesTxt)

/-- datetime.strptime(f"{dia}/{mes}/{anio}", "%d/%m/%Y") and its
" %H:%M" variant, on the unpadded int rendering the code builds:
%d accepts 1..31, %m accepts 1..12, %Y requires exactly four digits
(so 1000..9999 unpadded), the constructor checks the day against the
month length, %H accepts 0..23 and %M 0..59. Returns none where Python
raises ValueError. -/
def pyStrptimeDMY (dia mes anio : Nat) (hm : Option (Nat × Nat)) : Option DateTime :=
  if 1 ≤ dia ∧ dia ≤ 31 ∧ 1 ≤ mes ∧ mes ≤ 12 ∧ 1000 ≤ anio ∧ anio ≤ 9999 ∧
     dia ≤ daysInMonth anio mes then
    match hm with
    | none => some ⟨anio, mes, dia, 0, 0, 0⟩
    | some hn => if hn.1 ≤ 23 ∧ hn.2 ≤ 59 then some ⟨anio, mes, dia, hn.1, hn.2, 0⟩ else none
  else none

/-- The magnitude disambiguation of the numeric attempt: returns
(dia, mes, anio) from the three matched numbers. -/
def numAssign (a b c : Nat) : Nat × Nat × Nat :=
  if 31 < a then (c, b, a)
  else if 31 < c then (a, b, c)
  else (a, b, if c < 100 then c + 2000 else c)

/-- Tail of the long-form attempt after a regex match: resolve the month
name (returning None when unknown), expand a two-digit year, then strptime
(whose failure is an uncaught exception). -/
def longBuild (dia : Nat) (mesTxt : List Char) (anio : Nat) (hora : Option (Nat × Nat)) :
    Except Unit (Option DateTime) :=
  match resolveMes mesTxt with
  | none => .ok none
  | some mes =>
      match pyStrptimeDMY dia mes (if anio < 100 then anio + 2000 else anio) hora with
      | some dt => .ok (some dt)
      | none => .error ()

/-- Tail of the numeric attempt after a regex match: magnitude assignment,
then strptime (whose failure is an uncaught exception). -/
def numBuild (a b c : Nat) (hora : Option (Nat × Nat)) : Except Unit (Option DateTime) :=
  match numAssign a b c with
  | (dia, mes, anio) =>
      match pyStrptimeDMY dia mes anio hora with
      | some dt => .ok (some dt)
      | none => .error ()

/-- parse_fecha_universal: clean the text, try the ISO attempt, then the
long-form regex, then the numeric regex; return None when nothing matches.
Except.ok none is Python None; Except.error () is an uncaught ValueError
escaping from strptime. -/
def parse_fecha_universal (texto : String) : Except Unit (Option DateTime) :=
  match pyFromisoformat (cleanFecha texto.toList) with
  | some dt => .ok (some dt)
  | none =>
      match searchLong (cleanFecha texto.toList) with
      | some g => longBuild g.1 g.2.1 g.2.2.1 g.2.2.2
      | none =>
          match searchNum (cleanFecha texto.toList) with
          | some g => numBuild g.1 g.2.1 g.2.2.1 g.2.2.2
          | none => .ok none

/-!
balance.py: rule ordering (cargar_reglas) and per-line classification
(the inner loop of clasificar_lineas_texto).
-/

/-- str.split() with no argument: split on whitespace runs, no empty words.
The accumulator holds the current word reversed. -/
def splitWSAux : List Char → List Char → List (List Char)
  | [], acc => if acc = [] then [] else [acc.reverse]
  | c :: cs, acc =>
      if isSpaceC c then
        (if acc = [] then splitWSAux cs [] else acc.reverse :: splitWSAux cs [])
      else splitWSAux cs (c :: acc)

/-- limpiar_linea: " ".join(s.split()).strip(). -/
def limpiar_linea (cs : List Char) : List Char :=
  pyStrip (List.intercalate [' '] (splitWSAux cs []))

/-- The sort key step of cargar_reglas:
reglas.sort(key=lambda x: len(x[1]), reverse=True) is a stable sort by
descending pattern length; modelled as a stable insertion placing each
earlier rule before the first rule of smaller-or-equal pattern length. -/
def insertRegla (x : String × String) : List (String × String) → List (String × String)
  | [] => [x]
  | y :: ys => if y.2.length ≤ x.2.length then x :: y :: ys else y :: insertRegla x ys

/-- The ordered rule list produced by cargar_reglas from the loaded
(categoria, patron) pairs, in load order. -/
def ordenar_reglas (rs : List (String × String)) : List (String × String) :=
  rs.foldr insertRegla []

/-- The substring test of Python's in operator: pat occurs contiguously in
line (an empty pat occurs in everything). -/
def hasInfix (line pat : List Char) : Bool :=
  if pat.isPrefixOf line then true
  else
    match line with
    | [] => false
    | _ :: rest => hasInfix rest pat

/-- The classification of one cleaned line by the inner loop of
clasificar_lineas_texto: first rule (in stored order) whose upper-cased
pattern is a substring of the upper-cased whitespace-normalized line;
otherwise the sentinel ("SIN CLASIFICAR", ""), which the specification
names UNCLASSIFIED. -/
def clasificar_linea (reglas : List (String × String)) (linea : String) : String × String :=
  match reglas.find? (fun r =>
      hasInfix ((limpiar_linea linea.toList).map pyUpperChar) (r.2.toList.map pyUpperChar)) with
  | some r => (r.1, r.2)
  | none => ("SIN CLASIFICAR", "")

/-!
codigo_busca_prov.py: the MercadoLibre region lookup and its application
to the AFIP records (cargar_todo), and the CSV date export (exportar_csv).
-/

/-- str.strip on a String. -/
def pyStripS (s : String) : String := String.mk (pyStrip s.toList)

/-- A raw MercadoLibre row (the two fields the lookup uses). -/
structure MLRow where
  dni : String
  provincia : String
deriving DecidableEq, Repr

/-- An AFIP invoice record after normalizar_afip: fecha parsed, dni None
when blank, provincia filled in later. The monetary amount is a float and
is omitted (no claim depends on it). -/
structure AfipRec where
  fecha : DateTime
  dni : Option String
  numero : String
  provincia : Option String
deriving DecidableEq, Repr

/-- normalizar_mercado: strip the dni, drop the row when it is empty.
The latin1-to-utf8 re-decoding of provincia is byte-level mojibake repair
and is modelled as the identity on the decoded text, keeping the strip. -/
def normalizar_mercado (r : MLRow) : Option MLRow :=
  if pyStripS r.dni = "" then none
  else some ⟨pyStripS r.dni, pyStripS r.provincia⟩

/-- The ml_provincias dict of cargar_todo: iterate rows in order, a later
row with the same dni overwrites the earlier region. The dict is modelled
as an association list with the newest binding first, so List.lookup sees
exactly the last write. -/
def ml_provincias (rows : List MLRow) : List (String × String) :=
  rows.foldl (fun acc r =>
    match normalizar_mercado r with
    | none => acc
    | some f => (f.dni, f.provincia) :: acc) []

/-- The assignment loop of cargar_todo: each record's provincia becomes the
looked-up region when its dni is a key of the dict, otherwise the default
(the source hard-codes "Córdoba" as the default at this call site). -/
def asignar_provincia (afip : List AfipRec) (ml : List (String × String)) (dflt : String) :
    List AfipRec :=
  afip.map (fun f =>
    { f with provincia := some (match f.dni with
        | some d => match ml.lookup d with
            | some p => p
            | none => dflt
        | none => dflt) })

/-- Specification-side characterization used to state claim C8: the region
of the last input row surviving normalization that bears the given key, or
the default when no such row exists. -/
def lastRegionOf (rows : List MLRow) (key : Option String) (dflt : String) : String :=
  match key with
  | none => dflt
  | some d =>
      match (rows.filterMap normalizar_mercado).reverse.find? (fun f => f.dni == d) with
      | some f => f.provincia
      | none => dflt

/-- Two-digit zero-padded decimal rendering. -/
def pad2 (n : Nat) : List Char := [digitChar10 (n / 10), digitChar10 n]

/-- Four-digit zero-padded decimal rendering. -/
def pad4 (n : Nat) : List Char :=
  [digitChar10 (n / 1000), digitChar10 (n / 100), digitChar10 (n / 10), digitChar10 n]

/-- The date column written by exportar_csv: strftime("%d/%m/%Y").
Day and month are zero-padded to two digits; the year field is rendered
with four digits here (glibc renders years below 1000 without padding, but
every theorem below about this function is insensitive to that choice:
for years 1000-9999 the renderings agree, and for smaller years re-parsing
fails under either rendering). -/
def strftime_dmy (dt : DateTime) : String :=
  String.mk (pad2 dt.day ++ '/' :: pad2 dt.month ++ '/' :: pad4 dt.year)

/-! Helper lemmas: character classes. -/

theorem isDigitC_iff {c : Char} : isDigitC c = true ↔ 48 ≤ c.toNat ∧ c.toNat ≤ 57 := by
  simp [isDigitC, Bool.and_eq_true, decide_eq_true_eq]

theorem isSpaceC_eq_false_of_digit {c : Char} (h : isDigitC c = true) : isSpaceC c = false := by
  have h' := isDigitC_iff.mp h
  simp only [isSpaceC, Bool.or_eq_false_iff, decide_eq_false_iff_not]
  refine ⟨⟨⟨⟨⟨?_, ?_⟩, ?_⟩, ?_⟩, ?_⟩, ?_⟩ <;> rintro rfl <;> exact absurd h' (by decide)

theorem pyLowerChar_eq_self_of_digit {c : Char} (h : isDigitC c = true) : pyLowerChar c = c := by
  have h' := isDigitC_iff.mp h
  unfold pyLowerChar
  rw [if_neg]
  omega

theorem commaToSpace_eq_self_of_digit {c : Char} (h : isDigitC c = true) : commaToSpace c = c := by
  have h' := isDigitC_iff.mp h
  unfold commaToSpace
  rw [if_neg]
  rintro rfl
  exact absurd h' (by decide)

theorem ne_space_of_digit {c : Char} (h : isDigitC c = true) : c ≠ ' ' := by
  have h' := isDigitC_iff.mp h
  rintro rfl
  exact absurd h' (by decide)

theorem isLetterES_eq_false_of_digit {c : Char} (h : isDigitC c = true) : isLetterES c = false := by
  have h' := isDigitC_iff.mp h
  rw [Bool.eq_false_iff]
  intro hc
  simp only [isLetterES, Bool.or_eq_true, Bool.and_eq_true, decide_eq_true_eq] at hc
  have hc' : (97 ≤ c.toNat ∧ c.toNat ≤ 122) ∨ c = 'á' ∨ c = 'é' ∨ c = 'í' ∨ c = 'ó' ∨ c = 'ú' := by
    tauto
  rcases hc' with ⟨h1, h2⟩ | rfl | rfl | rfl | rfl | rfl
  · omega
  all_goals exact absurd h' (by decide)

theorem isDigitC_digitChar10 (n : Nat) : isDigitC (digitChar10 n) = true := by
  unfold digitChar10
  split <;> decide

theorem digToNat_digitChar10 (n : Nat) : digToNat (digitChar10 n) = n % 10 := by
  have hlt : n % 10 < 10 := Nat.mod_lt _ (by omega)
  have e0 : digToNat '0' = 0 := rfl
  have e1 : digToNat '1' = 1 := rfl
  have e2 : digToNat '2' = 2 := rfl
  have e3 : digToNat '3' = 3 := rfl
  have e4 : digToNat '4' = 4 := rfl
  have e5 : digToNat '5' = 5 := rfl
  have e6 : digToNat '6' = 6 := rfl
  have e7 : digToNat '7' = 7 := rfl
  have e8 : digToNat '8' = 8 := rfl
  have e9 : digToNat '9' = 9 := rfl
  have hd : n % 10 = 0 ∨ n % 10 = 1 ∨ n % 10 = 2 ∨ n % 10 = 3 ∨ n % 10 = 4 ∨ n % 10 = 5 ∨
      n % 10 = 6 ∨ n % 10 = 7 ∨ n % 10 = 8 ∨ n % 10 = 9 := by omega
  unfold digitChar10
  rcases hd with h | h | h | h | h | h | h | h | h | h <;> rw [h] <;> decide

/-! Helper lemmas: the cleanup pipeline is the identity on digit-delimited text. -/

theorem dropWhile_eq_self_of_head {p : Char → Bool} {cs : List Char}
    (h : ∀ c, cs.head? = some c → p c = false) : cs.dropWhile p = cs := by
  cases cs with
  | nil => rfl
  | cons c rest =>
      have := h c rfl
      simp [List.dropWhile_cons, this]

theorem pyStrip_eq_self {cs : List Char}
    (hh : ∀ c, cs.head? = some c → isSpaceC c = false)
    (hl : ∀ c, cs.getLast? = some c → isSpaceC c = false) : pyStrip cs = cs := by
  unfold pyStrip
  rw [dropWhile_eq_self_of_head hh]
  rw [dropWhile_eq_self_of_head (by simpa [List.head?_reverse] using hl)]
  exact List.reverse_reverse cs

theorem isHsSuffix_eq_false_of_digit_getLast {cs : List Char}
    (h : ∀ c, cs.getLast? = some c → isDigitC c = true) : isHsSuffix cs = false := by
  unfold isHsSuffix
  split
  · exact absurd (h 's' (by decide)) (by decide)
  · exact absurd (h 's' (by decide)) (by decide)
  · exact absurd (h 'r' (by decide)) (by decide)
  · exact absurd (h 'h' (by decide)) (by decide)
  · exact absurd (h '.' (by decide)) (by decide)
  · exact absurd (h '.' (by decide)) (by decide)
  · exact absurd (h '.' (by decide)) (by decide)
  · exact absurd (h '.' (by decide)) (by decide)
  · rfl

theorem subHs_eq_self {cs : List Char}
    (h : ∀ c, cs.getLast? = some c → isDigitC c = true) : ∀ b, subHs b cs = cs := by
  induction cs with
  | nil => intro b; rfl
  | cons c rest ih =>
      intro b
      unfold subHs
      rw [isHsSuffix_eq_false_of_digit_getLast h, Bool.and_false, if_neg (by simp)]
      cases rest with
      | nil => rfl
      | cons d rest2 =>
          have h' : ∀ x, (d :: rest2).getLast? = some x → isDigitC x = true := by
            intro x hx
            exact h x (by rw [List.getLast?_cons_cons]; exact hx)
          rw [ih h' _]

theorem collapse2_single (c : Char) : collapse2 [c] = [c] := by
  unfold collapse2
  split
  · rename_i heq
    exact absurd heq (by simp)
  · rename_i c2 rest2 hne heq
    injection heq with h1 h2
    subst h1
    subst h2
    rfl
  · rename_i heq
    exact absurd heq (by simp)

theorem collapse2_cons_not_both {c d : Char} (l : List Char) (h : c ≠ ' ' ∨ d ≠ ' ') :
    collapse2 (c :: d :: l) = c :: collapse2 (d :: l) := by
  unfold collapse2
  split
  · rename_i heq
    rw [List.cons.injEq, List.cons.injEq] at heq
    rcases h with h | h
    · exact absurd heq.1 h
    · exact absurd heq.2.1 h
  · rename_i c2 rest2 hne heq
    injection heq with h1 h2
    subst h1
    subst h2
    rw [← collapse2.eq_def]
  · rename_i heq
    exact absurd heq (by simp)

theorem collapse2_eq_self {cs : List Char}
    (h : List.Chain' (fun a b => a ≠ ' ' ∨ b ≠ ' ') cs) : collapse2 cs = cs := by
  induction cs with
  | nil => rfl
  | cons c rest ih =>
      cases rest with
      | nil => exact collapse2_single c
      | cons d l =>
          rw [List.chain'_cons] at h
          rw [collapse2_cons_not_both _ h.1, ih h.2]

/-! Helper lemmas: backtracking machinery. -/

theorem firstSome_eq_none_of_all {α β : Type} {f : α → Option β} {l : List α}
    (h : ∀ a ∈ l, f a = none) : firstSome f l = none := by
  induction l with
  | nil => rfl
  | cons x xs ih =>
      unfold firstSome
      rw [h x (List.mem_cons_self x xs)]
      exact ih (fun a ha => h a (List.mem_cons_of_mem x ha))

theorem takeWhile_eq_nil_of_head {p : Char → Bool} {cs : List Char}
    (h : ∀ c, cs.head? = some c → p c = false) : cs.takeWhile p = [] := by
  cases cs with
  | nil => rfl
  | cons c rest =>
      have := h c rfl
      simp [List.takeWhile_cons, this]

theorem letterTakes_eq_nil {cs : List Char} (h : ∀ c ∈ cs, isLetterES c = false) :
    letterTakes cs = [] := by
  unfold letterTakes
  rw [takeWhile_eq_nil_of_head ?hh]
  · rfl
  case hh =>
    intro c hc
    cases cs with
    | nil => simp at hc
    | cons d rest =>
        injection hc with hd
        exact hd ▸ h d (List.mem_cons_self d rest)

theorem tryDe_eq_none {α : Type} {cs : List Char} {k : List Char → Option α}
    (h : ∀ l, l.Sublist cs → k l = none) : tryDe cs k = none := by
  unfold tryDe
  split
  · rename_i rest
    rw [h rest ((List.sublist_cons_self 'e' rest).trans
      (List.sublist_cons_self 'd' ('e' :: rest)))]
    exact h _ (List.Sublist.refl _)
  · exact h cs (List.Sublist.refl cs)

theorem greedyCounts_rest_eq_drop {m M : Nat} {cs : List Char} {a : Nat × List Char}
    (h : a ∈ greedyCounts m M cs) : ∃ k, a.2 = cs.drop k := by
  unfold greedyCounts at h
  simp only [List.mem_map, List.mem_reverse] at h
  obtain ⟨k, _, hk⟩ := h
  exact ⟨k, by rw [← hk]⟩

theorem matchLongAt_eq_none {cs : List Char} (h : ∀ c ∈ cs, isLetterES c = false) :
    matchLongAt cs = none := by
  unfold matchLongAt
  apply firstSome_eq_none_of_all
  intro dia hdia
  obtain ⟨k, hk⟩ := greedyCounts_rest_eq_drop hdia
  have hsub : ∀ c ∈ dia.2, isLetterES c = false := by
    intro c hc
    exact h c (List.drop_subset k cs (hk ▸ hc))
  have hsub2 : ∀ c ∈ dia.2.dropWhile isSpaceC, isLetterES c = false := by
    intro c hc
    exact hsub c ((List.dropWhile_sublist isSpaceC).subset hc)
  apply tryDe_eq_none
  intro r3 hr3
  have hsub3 : ∀ c ∈ r3.dropWhile isSpaceC, isLetterES c = false := by
    intro c hc
    exact hsub2 c (hr3.subset ((List.dropWhile_sublist isSpaceC).subset hc))
  simp only [letterTakes_eq_nil hsub3]
  rfl

theorem searchLong_eq_none : ∀ {cs : List Char}, (∀ c ∈ cs, isLetterES c = false) →
    searchLong cs = none := by
  intro cs
  induction cs with
  | nil =>
      intro h
      show searchFrom matchLongAt [] = none
      show matchLongAt [] = none
      exact matchLongAt_eq_none h
  | cons c rest ih =>
      intro h
      show searchFrom matchLongAt (c :: rest) = none
      unfold searchFrom
      rw [matchLongAt_eq_none h]
      exact ih (fun x hx => h x (List.mem_cons_of_mem c hx))

/-! Helper lemmas: rendering arithmetic. -/

theorem natOfDigits_two (a b : Char) : natOfDigits [a, b] = 10 * digToNat a + digToNat b := by
  simp [natOfDigits, List.foldl]

theorem natOfDigits_four (a b c d : Char) :
    natOfDigits [a, b, c, d] =
      1000 * digToNat a + 100 * digToNat b + 10 * digToNat c + digToNat d := by
  simp [natOfDigits, List.foldl]
  ring

theorem natOfDigits_pad2 {n : Nat} (h : n ≤ 99) : natOfDigits (pad2 n) = n := by
  unfold pad2
  rw [natOfDigits_two, digToNat_digitChar10, digToNat_digitChar10]
  omega

theorem natOfDigits_pad4 {n : Nat} (h : n ≤ 9999) : natOfDigits (pad4 n) = n := by
  unfold pad4
  rw [natOfDigits_four, digToNat_digitChar10, digToNat_digitChar10, digToNat_digitChar10,
    digToNat_digitChar10]
  omega

theorem daysInMonth_le_31 (y m : Nat) : daysInMonth y m ≤ 31 := by
  unfold daysInMonth
  split
  · split <;> omega
  · split <;> omega

theorem daysInMonth_pos (y m : Nat) : 1 ≤ daysInMonth y m := by
  unfold daysInMonth
  split
  · split <;> omega
  · split <;> omega

/-! Helper lemmas: the region lookup (cargar_todo). -/

theorem option_map_or {α β : Type} (g : α → β) (a b : Option α) :
    Option.map g (a.or b) = (Option.map g a).or (Option.map g b) := by
  cases a <;> rfl

theorem ml_provincias_lookup_aux (rows : List MLRow) :
    ∀ (acc : List (String × String)) (d : String),
      List.lookup d (rows.foldl (fun acc r =>
          match normalizar_mercado r with
          | none => acc
          | some f => (f.dni, f.provincia) :: acc) acc) =
        (((rows.filterMap normalizar_mercado).reverse.find? (fun f => f.dni == d)).map
          (fun f => f.provincia)).or (List.lookup d acc) := by
  induction rows with
  | nil =>
      intro acc d
      simp [List.filterMap_nil]
  | cons r rest ih =>
      intro acc d
      rw [List.foldl_cons, List.filterMap_cons]
      cases hnorm : normalizar_mercado r with
      | none => exact ih acc d
      | some f =>
          refine (ih ((f.dni, f.provincia) :: acc) d).trans ?_
          rw [List.reverse_cons, List.find?_append, option_map_or, Option.or_assoc]
          congr 1
          by_cases hd : f.dni = d
          · simp [List.find?, List.lookup, hd]
          · have h1 : (f.dni == d) = false := by simp [hd]
            have h2 : (d == f.dni) = false := by
              simp only [beq_eq_false_iff_ne, ne_eq]
              intro hc
              exact hd hc.symm
            simp [List.find?, List.lookup, h1, h2]

theorem ml_provincias_lookup (rows : List MLRow) (d : String) :
    List.lookup d (ml_provincias rows) =
      ((rows.filterMap normalizar_mercado).reverse.find? (fun f => f.dni == d)).map
        (fun f => f.provincia) := by
  unfold ml_provincias
  rw [ml_provincias_lookup_aux rows [] d]
  cases ((rows.filterMap normalizar_mercado).reverse.find? (fun f => f.dni == d)).map
      (fun f => f.provincia) <;> rfl

/-! Helper lemmas: rule ordering (cargar_reglas). -/

theorem mem_insertRegla {z x : String × String} {l : List (String × String)} :
    z ∈ insertRegla x l ↔ z = x ∨ z ∈ l := by
  induction l with
  | nil => simp [insertRegla]
  | cons y ys ih =>
      unfold insertRegla
      split
      · simp [List.mem_cons]
      · simp [List.mem_cons, ih]
        tauto

theorem pairwise_insertRegla {x : String × String} {l : List (String × String)}
    (h : List.Pairwise (fun a b => b.2.length ≤ a.2.length) l) :
    List.Pairwise (fun a b => b.2.length ≤ a.2.length) (insertRegla x l) := by
  induction l with
  | nil => simp [insertRegla]
  | cons y ys ih =>
      rw [List.pairwise_cons] at h
      unfold insertRegla
      split
      · rename_i hyx
        rw [List.pairwise_cons]
        constructor
        · intro z hz
          rcases List.mem_cons.mp hz with rfl | hz
          · exact hyx
          · exact (h.1 z hz).trans hyx
        · exact List.pairwise_cons.mpr h
      · rename_i hyx
        rw [List.pairwise_cons]
        constructor
        · intro z hz
          rcases mem_insertRegla.mp hz with rfl | hz
          · omega
          · exact h.1 z hz
        · exact ih h.2

theorem filter_insertRegla_ne {x : String × String} {l : List (String × String)} {n : Nat}
    (hx : x.2.length ≠ n) :
    (insertRegla x l).filter (fun r => r.2.length == n) =
      l.filter (fun r => r.2.length == n) := by
  have hxb : (x.2.length == n) = false := by simp [hx]
  induction l with
  | nil => simp [insertRegla, List.filter_cons, hxb]
  | cons y ys ih =>
      unfold insertRegla
      split
      · rw [List.filter_cons, hxb]
        simp only [Bool.false_eq_true, if_false]
      · rw [List.filter_cons, List.filter_cons]
        cases hy : (y.2.length == n) <;> simp [hy, ih]

theorem filter_insertRegla_eq {x : String × String} {l : List (String × String)} {n : Nat}
    (hx : x.2.length = n) :
    (insertRegla x l).filter (fun r => r.2.length == n) =
      x :: l.filter (fun r => r.2.length == n) := by
  induction l with
  | nil => simp [insertRegla, List.filter, hx]
  | cons y ys ih =>
      unfold insertRegla
      split
      · simp [List.filter, hx]
      · rename_i hyx
        have hy : (y.2.length == n) = false := by
          simp only [beq_eq_false_iff_ne, ne_eq]
          omega
        rw [List.filter_cons, hy, List.filter_cons, hy]
        simp only [Bool.false_eq_true, if_false]
        exact ih

/-! Helper lemmas: strptime result shape. -/

theorem pyStrptimeDMY_eq_some {dia mes anio : Nat} {hm : Option (Nat × Nat)} {dt : DateTime}
    (h : pyStrptimeDMY dia mes anio hm = some dt) :
    dt.year = anio ∧ dt.month = mes ∧ dt.day = dia ∧ 1000 ≤ anio := by
  unfold pyStrptimeDMY at h
  split at h
  · rename_i hcond
    split at h
    · injection h with h'
      subst h'
      exact ⟨rfl, rfl, rfl, by omega⟩
    · split at h
      · injection h with h'
        subst h'
        exact ⟨rfl, rfl, rfl, by omega⟩
      · exact absurd h (by simp)
  · exact absurd h (by simp)

theorem pyStrptimeDMY_none_hour {dia mes anio : Nat} {dt : DateTime}
    (h : pyStrptimeDMY dia mes anio none = some dt) : dt.hour = 0 ∧ dt.minute = 0 := by
  unfold pyStrptimeDMY at h
  split at h
  · injection h with h'
    subst h'
    exact ⟨rfl, rfl⟩
  · exact absurd h (by simp)

/-! Helper lemmas: inversion of the attempt tails. -/

theorem numBuild_ok {a b c : Nat} {hora : Option (Nat × Nat)} {dt : DateTime}
    (h : numBuild a b c hora = .ok (some dt)) :
    pyStrptimeDMY (numAssign a b c).1 (numAssign a b c).2.1 (numAssign a b c).2.2 hora =
      some dt := by
  unfold numBuild at h
  split at h
  rename_i dia mes anio heq
  split at h
  · rename_i dt' hdt
    injection h with h'
    injection h' with h''
    subst h''
    rw [heq]
    exact hdt
  · exact Except.noConfusion h

theorem longBuild_ok {dia : Nat} {mesTxt : List Char} {anio : Nat} {hora : Option (Nat × Nat)}
    {dt : DateTime} (h : longBuild dia mesTxt anio hora = .ok (some dt)) :
    ∃ mes, resolveMes mesTxt = some mes ∧
      pyStrptimeDMY dia mes (if anio < 100 then anio + 2000 else anio) hora = some dt := by
  unfold longBuild at h
  split at h
  · injection h with h'
    exact Option.noConfusion h'
  · rename_i mes hmes
    split at h
    · rename_i dt' hdt
      injection h with h'
      injection h' with h''
      subst h''
      exact ⟨mes, hmes, hdt⟩
    · exact Except.noConfusion h

/-- C1: the claim states that parse never raises and that malformed input of
every kind returns null; but on calendar-invalid numeric components such as
32/13/2025 the code reaches strptime, whose ValueError is not caught, so the
call raises instead of returning null. -/
theorem claim_C1_counterexample :
    parse_fecha_universal "32/13/2025" = .error () ∧
      parse_fecha_universal "32/13/2025" ≠ .ok none := by
  refine ⟨rfl, fun h => ?_⟩
  rw [show parse_fecha_universal "32/13/2025" = .error () from rfl] at h
  exact Except.noConfusion h

/-- C1 amended: parse returns null for input that fails all three attempts
(empty or whitespace-only text, an unrecognized month name, no date-shaped
substring), but raises an uncaught ValueError from strptime for day/month
values that are numerically invalid for the calendar, such as 32/13/2025 or
day 31 in April. -/
theorem claim_C1_amended :
    parse_fecha_universal "" = .ok none ∧
    parse_fecha_universal "   " = .ok none ∧
    parse_fecha_universal "not a date" = .ok none ∧
    parse_fecha_universal "17 de blah de 2025" = .ok none ∧
    parse_fecha_universal "32/13/2025" = .error () ∧
    parse_fecha_universal "31/4/2025" = .error () :=
  ⟨rfl, rfl, rfl, rfl, rfl, rfl⟩

/-- C2: in the numeric attempt on A sep B sep C, if the first number exceeds
31 the triple is read as year/month/day, otherwise as day/month/year (with
two-digit-year expansion in the default branch); in particular
parse of 2025/1/14 gives year 2025, month 1, day 14 and parse of 14/1/2025
gives day 14, month 1, year 2025. -/
theorem claim_C2 :
    (∀ a b c hora dt, 31 < a → numBuild a b c hora = .ok (some dt) →
        dt.year = a ∧ dt.month = b ∧ dt.day = c) ∧
    (∀ a b c hora dt, a ≤ 31 → numBuild a b c hora = .ok (some dt) →
        dt.day = a ∧ dt.month = b ∧ dt.year = (if 31 < c then c else c + 2000)) ∧
    parse_fecha_universal "2025/1/14" = .ok (some ⟨2025, 1, 14, 0, 0, 0⟩) ∧
    parse_fecha_universal "14/1/2025" = .ok (some ⟨2025, 1, 14, 0, 0, 0⟩) := by
  refine ⟨?_, ?_, rfl, rfl⟩
  · intro a b c hora dt ha h
    have hps := numBuild_ok h
    unfold numAssign at hps
    rw [if_pos ha] at hps
    have hinv := pyStrptimeDMY_eq_some hps
    exact ⟨hinv.1, hinv.2.1, hinv.2.2.1⟩
  · intro a b c hora dt ha h
    have hps := numBuild_ok h
    unfold numAssign at hps
    rw [if_neg (by omega)] at hps
    by_cases hc : 31 < c
    · rw [if_pos hc] at hps
      have hinv := pyStrptimeDMY_eq_some hps
      rw [if_pos hc]
      exact ⟨hinv.2.2.1, hinv.2.1, hinv.1⟩
    · rw [if_neg hc] at hps
      have hc100 : c < 100 := by omega
      rw [if_pos hc100] at hps
      have hinv := pyStrptimeDMY_eq_some hps
      rw [if_neg hc]
      exact ⟨hinv.2.2.1, hinv.2.1, hinv.1⟩

/-- Witness for C2 at a concrete input of each branch. -/
theorem claim_C2_witness :
    ((⟨2025, 1, 14, 0, 0, 0⟩ : DateTime).year = 2025 ∧
      (⟨2025, 1, 14, 0, 0, 0⟩ : DateTime).month = 1 ∧
      (⟨2025, 1, 14, 0, 0, 0⟩ : DateTime).day = 14) ∧
    ((⟨2025, 1, 14, 0, 0, 0⟩ : DateTime).day = 14 ∧
      (⟨2025, 1, 14, 0, 0, 0⟩ : DateTime).month = 1 ∧
      (⟨2025, 1, 14, 0, 0, 0⟩ : DateTime).year = (if 31 < 2025 then 2025 else 2025 + 2000)) :=
  ⟨claim_C2.1 2025 1 14 none ⟨2025, 1, 14, 0, 0, 0⟩ (by omega) rfl,
   claim_C2.2.1 14 1 2025 none ⟨2025, 1, 14, 0, 0, 0⟩ (by omega) rfl⟩

/-- C3: on every input that the long-form or numeric attempt parses
successfully, a two-digit year component (below 100) yields year 2000+YY in
the result; for the numeric attempt the year component is the first number
when it exceeds 31 and the third number otherwise. -/
theorem claim_C3 :
    (∀ dia mesTxt anio hora dt, longBuild dia mesTxt anio hora = .ok (some dt) →
        anio < 100 → dt.year = 2000 + anio) ∧
    (∀ a b c hora dt, numBuild a b c hora = .ok (some dt) →
        (if 31 < a then a else c) < 100 → dt.year = 2000 + (if 31 < a then a else c)) ∧
    parse_fecha_universal "14/1/25" = .ok (some ⟨2025, 1, 14, 0, 0, 0⟩) := by
  refine ⟨?_, ?_, rfl⟩
  · intro dia mesTxt anio hora dt h h100
    obtain ⟨mes, _, hps⟩ := longBuild_ok h
    rw [if_pos h100] at hps
    have hinv := pyStrptimeDMY_eq_some hps
    omega
  · intro a b c hora dt h h100
    have hps := numBuild_ok h
    unfold numAssign at hps
    by_cases ha : 31 < a
    · rw [if_pos ha] at hps h100 ⊢
      have hps' : pyStrptimeDMY c b a hora = some dt := hps
      have hinv := pyStrptimeDMY_eq_some hps'
      omega
    · rw [if_neg ha] at hps h100 ⊢
      by_cases hc : 31 < c
      · rw [if_pos hc] at hps
        have hps' : pyStrptimeDMY a b c hora = some dt := hps
        have hinv := pyStrptimeDMY_eq_some hps'
        omega
      · rw [if_neg hc, if_pos (show c < 100 by omega)] at hps
        have hps' : pyStrptimeDMY a b (c + 2000) hora = some dt := hps
        have hinv := pyStrptimeDMY_eq_some hps'
        omega

/-- Witness for C3: a concrete two-digit year through each attempt. -/
theorem claim_C3_witness :
    (⟨2025, 1, 17, 0, 0, 0⟩ : DateTime).year = 2000 + 25 ∧
      (⟨2025, 1, 14, 0, 0, 0⟩ : DateTime).year = 2000 + (if 31 < 14 then 14 else 25) :=
  ⟨claim_C3.1 17 "enero".toList 25 none ⟨2025, 1, 17, 0, 0, 0⟩ rfl (by omega),
   claim_C3.2.1 14 1 25 none ⟨2025, 1, 14, 0, 0, 0⟩ rfl (by decide)⟩

/-- C5: the long-form attempt matches day, optional de, Spanish month name,
optional de, year and an optional hour:minute suffix, resolving the month
through the table keyed by the first three letters with the full name as
fallback; the sample sentence parses to 2025-11-17 08:23, and when the time
suffix is absent the time defaults to midnight. -/
theorem claim_C5 :
    parse_fecha_universal "17 de noviembre de 2025 08:23" =
        .ok (some ⟨2025, 11, 17, 8, 23, 0⟩) ∧
    parse_fecha_universal "17 de noviembre de 2025" = .ok (some ⟨2025, 11, 17, 0, 0, 0⟩) ∧
    (∀ dia mesTxt anio dt, longBuild dia mesTxt anio none = .ok (some dt) →
        dt.hour = 0 ∧ dt.minute = 0) ∧
    resolveMes "septiembre".toList = some 9 ∧ resolveMes "setiembre".toList = some 9 ∧
    resolveMes "sep".toList = some 9 ∧ resolveMes "set".toList = some 9 ∧
    resolveMes "noviembre".toList = some 11 ∧ resolveMes "nov".toList = some 11 := by
  refine ⟨rfl, rfl, ?_, rfl, rfl, rfl, rfl, rfl, rfl⟩
  intro dia mesTxt anio dt h
  obtain ⟨mes, _, hps⟩ := longBuild_ok h
  exact pyStrptimeDMY_none_hour hps

/-- Witness for C5 midnight default at a concrete long-form match. -/
theorem claim_C5_witness :
    (⟨2025, 11, 17, 0, 0, 0⟩ : DateTime).hour = 0 ∧
      (⟨2025, 11, 17, 0, 0, 0⟩ : DateTime).minute = 0 :=
  claim_C5.2.2.1 17 "noviembre".toList 2025 ⟨2025, 11, 17, 0, 0, 0⟩ rfl

/-- C10: the claim states that any input containing an in-range numeric
substring A sep B sep C yields the date built from that match; but the
attempts are tried in order, and here an earlier long-form match with an
unknown month name (1 a 14) makes parse return null even though the
in-range substring 14/1/2025 is present. -/
theorem claim_C10_counterexample :
    parse_fecha_universal "x 1 a 14/1/2025" = .ok none ∧
      parse_fecha_universal "x 1 a 14/1/2025" ≠ .ok (some ⟨2025, 1, 14, 0, 0, 0⟩) := by
  refine ⟨rfl, fun h => ?_⟩
  rw [show parse_fecha_universal "x 1 a 14/1/2025" = .ok none from rfl] at h
  exact Option.noConfusion (Except.ok.inj h)

/-- C10 amended: the long-form and numeric attempts do match date-shaped
substrings anywhere inside the input rather than requiring the whole string
to be a date (the embedded 14/1/2025 and the version-like token 1.2.3 both
parse), but an embedded in-range numeric substring is not always used: an
earlier attempt that matches first decides the result, and a long-form
match with an unrecognized month name makes parse return null. -/
theorem claim_C10_amended :
    parse_fecha_universal "pedido del 14/1/2025 confirmado" =
        .ok (some ⟨2025, 1, 14, 0, 0, 0⟩) ∧
    parse_fecha_universal "1.2.3" = .ok (some ⟨2003, 2, 1, 0, 0, 0⟩) ∧
    parse_fecha_universal "x 1 a 14/1/2025" = .ok none :=
  ⟨rfl, rfl, rfl⟩

/-- C6: the stored rule list is the loaded rules sorted by descending
pattern character-length, stably (for every length the rules of that length
keep their load order), and classification returns the category of the
first stored rule whose pattern occurs case-insensitively in the
whitespace-normalized line; on the two sample rules the longer pattern
PAGO SUC wins and the category BANCO X SUC is returned. -/
theorem claim_C6 :
    (∀ rs : List (String × String),
        List.Pairwise (fun a b : String × String => b.2.length ≤ a.2.length)
          (ordenar_reglas rs)) ∧
    (∀ (rs : List (String × String)) (n : Nat),
        (ordenar_reglas rs).filter (fun r => r.2.length == n) =
          rs.filter (fun r => r.2.length == n)) ∧
    clasificar_linea (ordenar_reglas [("BANCO X", "PAGO"), ("BANCO X SUC", "PAGO SUC")])
        "PAGO SUC 123" = ("BANCO X SUC", "PAGO SUC") := by
  refine ⟨?_, ?_, by rfl⟩
  · intro rs
    induction rs with
    | nil => exact List.Pairwise.nil
    | cons r rest ih => exact pairwise_insertRegla ih
  · intro rs n
    induction rs with
    | nil => rfl
    | cons r rest ih =>
        show (insertRegla r (ordenar_reglas rest)).filter (fun r => r.2.length == n) = _
        rw [List.filter_cons]
        by_cases hr : r.2.length = n
        · rw [filter_insertRegla_eq hr, ih]
          simp [hr]
        · rw [filter_insertRegla_ne hr, ih]
          have : (r.2.length == n) = false := by simp [hr]
          rw [this]
          simp only [Bool.false_eq_true, if_false]

/-- C7: when no rule pattern occurs (case-insensitively) in the normalized
line, classification returns the sentinel category with an empty matched
pattern; the sentinel the specification calls UNCLASSIFIED is the string
SIN CLASIFICAR in the source. -/
theorem claim_C7 (reglas : List (String × String)) (linea : String) (hne : linea ≠ "")
    (h : ∀ r ∈ reglas,
        hasInfix ((limpiar_linea linea.toList).map pyUpperChar)
          (r.2.toList.map pyUpperChar) = false) :
    clasificar_linea reglas linea = ("SIN CLASIFICAR", "") := by
  unfold clasificar_linea
  rw [List.find?_eq_none.mpr (fun r hr => by rw [h r hr]; exact Bool.false_ne_true)]

/-- Witness for C7 on a concrete line and rule set. -/
theorem claim_C7_witness :
    clasificar_linea [("BANCO X", "PAGO")] "no tiene nada que ver" = ("SIN CLASIFICAR", "") :=
  claim_C7 [("BANCO X", "PAGO")] "no tiene nada que ver" (by decide) (by decide)

/-- C8: after building the region lookup and applying it with a default,
every record has a non-null region, equal to the region of the last
surviving input row bearing the record's key, or the default when no row
bears it. -/
theorem claim_C8 (rows : List MLRow) (recs : List AfipRec) (dflt : String) (r' : AfipRec)
    (h : r' ∈ asignar_provincia recs (ml_provincias rows) dflt) :
    r'.provincia ≠ none ∧
      ∃ r ∈ recs, r' = { r with provincia := some (lastRegionOf rows r.dni dflt) } := by
  unfold asignar_provincia at h
  obtain ⟨r, hr, hmap⟩ := List.mem_map.mp h
  refine ⟨?_, r, hr, ?_⟩
  · rw [← hmap]
    simp
  · rw [← hmap]
    cases hdni : r.dni with
    | none => rfl
    | some d =>
        refine congrArg (fun p =>
          ({ fecha := r.fecha, dni := some d, numero := r.numero,
             provincia := some p } : AfipRec)) ?_
        show (match List.lookup d (ml_provincias rows) with
              | some p => p
              | none => dflt) =
            (match (rows.filterMap normalizar_mercado).reverse.find? (fun f => f.dni == d) with
              | some f => f.provincia
              | none => dflt)
        rw [ml_provincias_lookup]
        cases hf : (rows.filterMap normalizar_mercado).reverse.find? (fun f => f.dni == d) <;>
          rfl

/-- Witness for C8: duplicate rows for key 7, last row wins; the record gets
its region from that last row. -/
theorem claim_C8_witness :
    (⟨⟨2025, 1, 1, 0, 0, 0⟩, some "7", "F1", some "Santa Fe"⟩ : AfipRec).provincia ≠ none ∧
      ∃ r ∈ [(⟨⟨2025, 1, 1, 0, 0, 0⟩, some "7", "F1", none⟩ : AfipRec)],
        (⟨⟨2025, 1, 1, 0, 0, 0⟩, some "7", "F1", some "Santa Fe"⟩ : AfipRec) =
          { r with
            provincia := some (lastRegionOf [⟨"7", "Buenos Aires"⟩, ⟨"7", "Santa Fe"⟩]
              r.dni "Córdoba") } :=
  claim_C8 [⟨"7", "Buenos Aires"⟩, ⟨"7", "Santa Fe"⟩]
    [⟨⟨2025, 1, 1, 0, 0, 0⟩, some "7", "F1", none⟩] "Córdoba"
    ⟨⟨2025, 1, 1, 0, 0, 0⟩, some "7", "F1", some "Santa Fe"⟩ (by decide)

/-- C9: the claim states the dd/mm/yyyy export re-parses to the same
calendar date for every valid ParsedDate; but for the calendar-valid date
with year 45 the re-parse of the exported column raises (the year has fewer
than four digits, whether or not the rendering pads it), so the round trip
fails. -/
theorem claim_C9_counterexample :
    (1 ≤ 14 ∧ 14 ≤ daysInMonth 45 1) ∧
    parse_fecha_universal (strftime_dmy ⟨45, 1, 14, 0, 0, 0⟩) = .error () ∧
      parse_fecha_universal (strftime_dmy ⟨45, 1, 14, 0, 0, 0⟩) ≠
        .ok (some ⟨45, 1, 14, 0, 0, 0⟩) := by
  refine ⟨by decide, rfl, fun h => ?_⟩
  rw [show parse_fecha_universal (strftime_dmy ⟨45, 1, 14, 0, 0, 0⟩) = .error () from rfl] at h
  exact Except.noConfusion h

/-! Helper lemmas: the cleanup pipeline on ISO-shaped text. -/

theorem pyLowerChar_dash : pyLowerChar '-' = '-' := by decide

theorem pyLowerChar_colon : pyLowerChar ':' = ':' := by decide

theorem commaToSpace_dash : commaToSpace '-' = '-' := by decide

theorem commaToSpace_colon : commaToSpace ':' = ':' := by decide

theorem dash_ne_space : ('-' : Char) ≠ ' ' := by decide

theorem colon_ne_space : (':' : Char) ≠ ' ' := by decide

theorem getLast?_cons_of_ne_nil {a : Char} {l : List Char} (h : l ≠ []) :
    (a :: l).getLast? = l.getLast? := by
  cases l with
  | nil => exact absurd rfl h
  | cons b t => exact List.getLast?_cons_cons

theorem isoDateVal_some_chars {y1 y2 y3 y4 s1 m1 m2 s2 d1 d2 : Char} {t : Nat × Nat × Nat}
    (h : isoDateVal y1 y2 y3 y4 s1 m1 m2 s2 d1 d2 = some t) :
    isDigitC y1 = true ∧ isDigitC y2 = true ∧ isDigitC y3 = true ∧ isDigitC y4 = true ∧
      s1 = '-' ∧ isDigitC m1 = true ∧ isDigitC m2 = true ∧ s2 = '-' ∧
      isDigitC d1 = true ∧ isDigitC d2 = true := by
  unfold isoDateVal at h
  split at h
  · rename_i hcond
    simp only [Bool.and_eq_true, decide_eq_true_eq] at hcond
    tauto
  · exact Option.noConfusion h

theorem cleanFecha_date10 {y1 y2 y3 y4 m1 m2 d1 d2 : Char}
    (h1 : isDigitC y1 = true) (h2 : isDigitC y2 = true) (h3 : isDigitC y3 = true)
    (h4 : isDigitC y4 = true) (h5 : isDigitC m1 = true) (h6 : isDigitC m2 = true)
    (h7 : isDigitC d1 = true) (h8 : isDigitC d2 = true) :
    cleanFecha [y1, y2, y3, y4, '-', m1, m2, '-', d1, d2] =
      [y1, y2, y3, y4, '-', m1, m2, '-', d1, d2] := by
  have hlast : ∀ c, ([y1, y2, y3, y4, '-', m1, m2, '-', d1, d2] : List Char).getLast? = some c →
      isDigitC c = true := by
    intro c hc
    simp only [List.getLast?_cons_cons, List.getLast?_singleton, Option.some.injEq] at hc
    rw [← hc]
    exact h8
  have hhead : ∀ c, ([y1, y2, y3, y4, '-', m1, m2, '-', d1, d2] : List Char).head? = some c →
      isSpaceC c = false := by
    intro c hc
    injection hc with hc
    rw [← hc]
    exact isSpaceC_eq_false_of_digit h1
  unfold cleanFecha
  rw [show List.map pyLowerChar [y1, y2, y3, y4, '-', m1, m2, '-', d1, d2] =
      [y1, y2, y3, y4, '-', m1, m2, '-', d1, d2] by
    simp [pyLowerChar_eq_self_of_digit, h1, h2, h3, h4, h5, h6, h7, h8, pyLowerChar_dash]]
  rw [pyStrip_eq_self hhead (fun c hc => isSpaceC_eq_false_of_digit (hlast c hc))]
  rw [subHs_eq_self hlast false]
  rw [pyStrip_eq_self hhead (fun c hc => isSpaceC_eq_false_of_digit (hlast c hc))]
  rw [show List.map commaToSpace [y1, y2, y3, y4, '-', m1, m2, '-', d1, d2] =
      [y1, y2, y3, y4, '-', m1, m2, '-', d1, d2] by
    simp [commaToSpace_eq_self_of_digit, h1, h2, h3, h4, h5, h6, h7, h8, commaToSpace_dash]]
  refine collapse2_eq_self ?_
  simp only [List.chain'_cons, List.chain'_singleton, and_true]
  refine ⟨?_, ?_, ?_, ?_, ?_, ?_, ?_, ?_, ?_⟩
  · exact Or.inl (ne_space_of_digit h1)
  · exact Or.inl (ne_space_of_digit h2)
  · exact Or.inl (ne_space_of_digit h3)
  · exact Or.inl (ne_space_of_digit h4)
  · exact Or.inl dash_ne_space
  · exact Or.inl (ne_space_of_digit h5)
  · exact Or.inl (ne_space_of_digit h6)
  · exact Or.inl dash_ne_space
  · exact Or.inl (ne_space_of_digit h7)

theorem cleanFecha_date_sep {y1 y2 y3 y4 m1 m2 d1 d2 : Char} {sep : Char} {rest : List Char}
    (h1 : isDigitC y1 = true) (h2 : isDigitC y2 = true) (h3 : isDigitC y3 = true)
    (h4 : isDigitC y4 = true) (h5 : isDigitC m1 = true) (h6 : isDigitC m2 = true)
    (h7 : isDigitC d1 = true) (h8 : isDigitC d2 = true)
    (hrl : List.map pyLowerChar rest = rest)
    (hrc : List.map commaToSpace rest = rest)
    (hrn : rest ≠ [])
    (hrlast : ∀ c, rest.getLast? = some c → isDigitC c = true)
    (hrhead : ∀ c, rest.head? = some c → c ≠ ' ')
    (hrchain : List.Chain' (fun a b => a ≠ ' ' ∨ b ≠ ' ') rest) :
    cleanFecha (y1 :: y2 :: y3 :: y4 :: '-' :: m1 :: m2 :: '-' :: d1 :: d2 :: sep :: rest) =
      y1 :: y2 :: y3 :: y4 :: '-' :: m1 :: m2 :: '-' :: d1 :: d2 ::
        commaToSpace (pyLowerChar sep) :: rest := by
  have hlast : ∀ c,
      (y1 :: y2 :: y3 :: y4 :: '-' :: m1 :: m2 :: '-' :: d1 :: d2 ::
        pyLowerChar sep :: rest).getLast? = some c → isDigitC c = true := by
    intro c hc
    simp only [List.getLast?_cons_cons] at hc
    rw [getLast?_cons_of_ne_nil hrn] at hc
    exact hrlast c hc
  have hhead : ∀ c,
      (y1 :: y2 :: y3 :: y4 :: '-' :: m1 :: m2 :: '-' :: d1 :: d2 ::
        pyLowerChar sep :: rest).head? = some c → isSpaceC c = false := by
    intro c hc
    injection hc with hc
    rw [← hc]
    exact isSpaceC_eq_false_of_digit h1
  unfold cleanFecha
  rw [show List.map pyLowerChar
        (y1 :: y2 :: y3 :: y4 :: '-' :: m1 :: m2 :: '-' :: d1 :: d2 :: sep :: rest) =
      y1 :: y2 :: y3 :: y4 :: '-' :: m1 :: m2 :: '-' :: d1 :: d2 ::
        pyLowerChar sep :: rest by
    simp [pyLowerChar_eq_self_of_digit, h1, h2, h3, h4, h5, h6, h7, h8, pyLowerChar_dash, hrl]]
  rw [pyStrip_eq_self hhead (fun c hc => isSpaceC_eq_false_of_digit (hlast c hc))]
  rw [subHs_eq_self hlast false]
  rw [pyStrip_eq_self hhead (fun c hc => isSpaceC_eq_false_of_digit (hlast c hc))]
  rw [show List.map commaToSpace
        (y1 :: y2 :: y3 :: y4 :: '-' :: m1 :: m2 :: '-' :: d1 :: d2 ::
          pyLowerChar sep :: rest) =
      y1 :: y2 :: y3 :: y4 :: '-' :: m1 :: m2 :: '-' :: d1 :: d2 ::
        commaToSpace (pyLowerChar sep) :: rest by
    simp [commaToSpace_eq_self_of_digit, h1, h2, h3, h4, h5, h6, h7, h8, commaToSpace_dash, hrc]]
  refine collapse2_eq_self ?_
  obtain ⟨r0, rest', hr0⟩ : ∃ r0 rest', rest = r0 :: rest' := by
    cases rest with
    | nil => exact absurd rfl hrn
    | cons r0 rest' => exact ⟨r0, rest', rfl⟩
  subst hr0
  simp only [List.chain'_cons]
  refine ⟨Or.inl (ne_space_of_digit h1), Or.inl (ne_space_of_digit h2),
    Or.inl (ne_space_of_digit h3), Or.inl (ne_space_of_digit h4), Or.inl dash_ne_space,
    Or.inl (ne_space_of_digit h5), Or.inl (ne_space_of_digit h6), Or.inl dash_ne_space,
    Or.inl (ne_space_of_digit h7), Or.inl (ne_space_of_digit h8),
    Or.inr (hrhead r0 rfl), ?_⟩
  exact hrchain

theorem pyFromisoformat_ten (y1 y2 y3 y4 s1 m1 m2 s2 d1 d2 : Char) :
    pyFromisoformat [y1, y2, y3, y4, s1, m1, m2, s2, d1, d2] =
      match isoDateVal y1 y2 y3 y4 s1 m1 m2 s2 d1 d2 with
      | some (y, m, d) => some ⟨y, m, d, 0, 0, 0⟩
      | none => none := rfl

theorem pyFromisoformat_sep (y1 y2 y3 y4 s1 m1 m2 s2 d1 d2 sep c0 : Char) (rest0 : List Char) :
    pyFromisoformat
        (y1 :: y2 :: y3 :: y4 :: s1 :: m1 :: m2 :: s2 :: d1 :: d2 :: sep :: c0 :: rest0) =
      match isoDateVal y1 y2 y3 y4 s1 m1 m2 s2 d1 d2 with
      | some (y, m, d) =>
          match isoTimeVal (c0 :: rest0) with
          | some (h, n, e) => some ⟨y, m, d, h, n, e⟩
          | none => none
      | none => none := rfl

theorem cleanFecha_iso {cs : List Char} {v : DateTime} (h : pyFromisoformat cs = some v) :
    pyFromisoformat (cleanFecha cs) = some v := by
  unfold pyFromisoformat at h
  split at h
  · rename_i y1 y2 y3 y4 s1 m1 m2 s2 d1 d2
    split at h
    · rename_i y m d heq
      obtain ⟨g1, g2, g3, g4, g5, g6, g7, g8, g9, g10⟩ := isoDateVal_some_chars heq
      subst g5
      subst g8
      rw [cleanFecha_date10 g1 g2 g3 g4 g6 g7 g9 g10, pyFromisoformat_ten]
      simp only [heq]
      exact h
    · exact Option.noConfusion h
  · rename_i y1 y2 y3 y4 s1 m1 m2 s2 d1 d2 sep rest
    split at h
    · rename_i y m d heq
      split at h
      · rename_i hh nn ee heqt
        obtain ⟨g1, g2, g3, g4, g5, g6, g7, g8, g9, g10⟩ := isoDateVal_some_chars heq
        subst g5
        subst g8
        have heqt' := heqt
        unfold isoTimeVal at heqt
        split at heqt
        · rename_i a1 a2
          split at heqt
          · rename_i hcnd
            simp only [Bool.and_eq_true] at hcnd
            obtain ⟨ha1, ha2⟩ := hcnd
            rw [cleanFecha_date_sep g1 g2 g3 g4 g6 g7 g9 g10
              (by simp [pyLowerChar_eq_self_of_digit, ha1, ha2])
              (by simp [commaToSpace_eq_self_of_digit, ha1, ha2])
              (by simp)
              (by
                intro c hc
                simp only [List.getLast?_cons_cons, List.getLast?_singleton,
                  Option.some.injEq] at hc
                rw [← hc]
                exact ha2)
              (by
                intro c hc
                injection hc with hc
                rw [← hc]
                exact ne_space_of_digit ha1)
              (by
                simp only [List.chain'_cons, List.chain'_singleton, and_true]
                exact Or.inl (ne_space_of_digit ha1))]
            rw [pyFromisoformat_sep]
            simp only [heq, heqt']
            exact h
          · exact Option.noConfusion heqt
        · rename_i a1 a2 b1 b2
          split at heqt
          · rename_i hcnd
            simp only [Bool.and_eq_true] at hcnd
            obtain ⟨⟨⟨ha1, ha2⟩, hb1⟩, hb2⟩ := hcnd
            rw [cleanFecha_date_sep g1 g2 g3 g4 g6 g7 g9 g10
              (by simp [pyLowerChar_eq_self_of_digit, ha1, ha2, hb1, hb2, pyLowerChar_colon])
              (by simp [commaToSpace_eq_self_of_digit, ha1, ha2, hb1, hb2, commaToSpace_colon])
              (by simp)
              (by
                intro c hc
                simp only [List.getLast?_cons_cons, List.getLast?_singleton,
                  Option.some.injEq] at hc
                rw [← hc]
                exact hb2)
              (by
                intro c hc
                injection hc with hc
                rw [← hc]
                exact ne_space_of_digit ha1)
              (by
                simp only [List.chain'_cons, List.chain'_singleton, and_true]
                exact ⟨Or.inl (ne_space_of_digit ha1), Or.inl (ne_space_of_digit ha2),
                  Or.inl colon_ne_space, Or.inl (ne_space_of_digit hb1)⟩)]
            rw [pyFromisoformat_sep]
            simp only [heq, heqt']
            exact h
          · exact Option.noConfusion heqt
        · rename_i a1 a2 b1 b2 c1 c2
          split at heqt
          · rename_i hcnd
            simp only [Bool.and_eq_true] at hcnd
            obtain ⟨⟨⟨⟨⟨ha1, ha2⟩, hb1⟩, hb2⟩, hc1⟩, hc2⟩ := hcnd
            rw [cleanFecha_date_sep g1 g2 g3 g4 g6 g7 g9 g10
              (by simp [pyLowerChar_eq_self_of_digit, ha1, ha2, hb1, hb2, hc1, hc2,
                pyLowerChar_colon])
              (by simp [commaToSpace_eq_self_of_digit, ha1, ha2, hb1, hb2, hc1, hc2,
                commaToSpace_colon])
              (by simp)
              (by
                intro c hc
                simp only [List.getLast?_cons_cons, List.getLast?_singleton,
                  Option.some.injEq] at hc
                rw [← hc]
                exact hc2)
              (by
                intro c hc
                injection hc with hc
                rw [← hc]
                exact ne_space_of_digit ha1)
              (by
                simp only [List.chain'_cons, List.chain'_singleton, and_true]
                exact ⟨Or.inl (ne_space_of_digit ha1), Or.inl (ne_space_of_digit ha2),
                  Or.inl colon_ne_space, Or.inl (ne_space_of_digit hb1),
                  Or.inl (ne_space_of_digit hb2), Or.inl colon_ne_space,
                  Or.inl (ne_space_of_digit hc1)⟩)]
            rw [pyFromisoformat_sep]
            simp only [heq, heqt']
            exact h
          · exact Option.noConfusion heqt
        · exact Option.noConfusion heqt
      · exact Option.noConfusion h
    · exact Option.noConfusion h
  · exact Option.noConfusion h

/-- C4: every string accepted by the ISO attempt parses through
parse_fecha_universal with exactly the ISO calendar value: the cleanup
pipeline leaves such strings acceptable to the ISO attempt with the same
value, the ISO attempt is tried first, and its success returns immediately,
before the long-form and numeric attempts. -/
theorem claim_C4 (s : String) (v : DateTime) (h : pyFromisoformat s.toList = some v) :
    pyFromisoformat (cleanFecha s.toList) = some v ∧
      parse_fecha_universal s = .ok (some v) := by
  have hc := cleanFecha_iso h
  refine ⟨hc, ?_⟩
  unfold parse_fecha_universal
  rw [hc]

/-- Witness for C4 on a concrete ISO date-time string. -/
theorem claim_C4_witness :
    pyFromisoformat (cleanFecha "2025-01-14T08:23:45".toList) =
        some ⟨2025, 1, 14, 8, 23, 45⟩ ∧
      parse_fecha_universal "2025-01-14T08:23:45" = .ok (some ⟨2025, 1, 14, 8, 23, 45⟩) :=
  claim_C4 "2025-01-14T08:23:45" ⟨2025, 1, 14, 8, 23, 45⟩ (by rfl)

theorem firstSome_cons_eq {α β : Type} (f : α → Option β) (x : α) (xs : List α) :
    firstSome f (x :: xs) =
      match f x with
      | some b => some b
      | none => firstSome f xs := rfl

theorem matchNumAt_ddmmyyyy {D1 D2 M1 M2 Y1 Y2 Y3 Y4 : Char}
    (h1 : isDigitC D1 = true) (h2 : isDigitC D2 = true) (h3 : isDigitC M1 = true)
    (h4 : isDigitC M2 = true) (h5 : isDigitC Y1 = true) (h6 : isDigitC Y2 = true)
    (h7 : isDigitC Y3 = true) (h8 : isDigitC Y4 = true) :
    matchNumAt [D1, D2, '/', M1, M2, '/', Y1, Y2, Y3, Y4] =
      some (natOfDigits [D1, D2], natOfDigits [M1, M2], natOfDigits [Y1, Y2, Y3, Y4], none) := by
  have hs : isDigitC '/' = false := by decide
  have hsep : isSepC '/' = true := by decide
  unfold matchNumAt greedyCounts
  simp only [List.takeWhile_cons, h1, h2, h3, h4, h5, h6, h7, h8, hs, if_true, if_false,
    Bool.false_eq_true, List.takeWhile_nil, List.length_cons, List.length_nil]
  norm_num
  simp only [List.range', List.reverse_cons, List.reverse_nil, List.nil_append,
    List.cons_append, List.map_cons, List.map_nil, List.take, List.drop,
    firstSome_cons_eq, hsep, if_true]
  simp only [List.takeWhile_cons, h1, h2, h3, h4, h5, h6, h7, h8, hs, if_true, if_false,
    Bool.false_eq_true, List.takeWhile_nil, List.length_cons, List.length_nil]
  norm_num
  simp only [List.range', List.reverse_cons, List.reverse_nil, List.nil_append,
    List.cons_append, List.map_cons, List.map_nil, List.take, List.drop,
    firstSome_cons_eq, hsep, if_true]
  simp only [List.takeWhile_cons, h1, h2, h3, h4, h5, h6, h7, h8, hs, if_true, if_false,
    Bool.false_eq_true, List.takeWhile_nil, List.length_cons, List.length_nil]
  norm_num
  simp only [List.range', List.reverse_cons, List.reverse_nil, List.nil_append,
    List.cons_append, List.map_cons, List.map_nil, List.take, List.drop,
    firstSome_cons_eq, hsep, if_true]
  rfl

theorem pyLowerChar_slash : pyLowerChar '/' = '/' := by decide

theorem commaToSpace_slash : commaToSpace '/' = '/' := by decide

theorem slash_ne_space : ('/' : Char) ≠ ' ' := by decide

theorem cleanFecha_eq_self {cs : List Char}
    (hlower : List.map pyLowerChar cs = cs)
    (hcomma : List.map commaToSpace cs = cs)
    (hhead : ∀ c, cs.head? = some c → isSpaceC c = false)
    (hlast : ∀ c, cs.getLast? = some c → isDigitC c = true)
    (hchain : List.Chain' (fun a b => a ≠ ' ' ∨ b ≠ ' ') cs) :
    cleanFecha cs = cs := by
  unfold cleanFecha
  rw [hlower, pyStrip_eq_self hhead (fun c hc => isSpaceC_eq_false_of_digit (hlast c hc)),
    subHs_eq_self hlast false,
    pyStrip_eq_self hhead (fun c hc => isSpaceC_eq_false_of_digit (hlast c hc)), hcomma]
  exact collapse2_eq_self hchain

theorem searchFrom_cons_eq {α : Type} (m : List Char → Option α) (c : Char) (cs : List Char) :
    searchFrom m (c :: cs) =
      match m (c :: cs) with
      | some x => some x
      | none => searchFrom m cs := rfl
/-- Adding 2000 to a year preserves every remainder the leap-year test
inspects (2000 is divisible by 4, 100 and 400), so the month lengths agree. -/
theorem daysInMonth_add_2000 (y m : Nat) : daysInMonth (y + 2000) m = daysInMonth y m := by
  unfold daysInMonth esBisiesto
  have h4 : (y + 2000) % 4 = y % 4 := by omega
  have h100 : (y + 2000) % 100 = y % 100 := by omega
  have h400 : (y + 2000) % 400 = y % 400 := by omega
  rw [h4, h100, h400]

/-- The dd/mm/yyyy export of any record with in-range fields re-parses
through the numeric attempt: the cleanup pipeline is the identity on the
rendered digits and slashes, the ISO and long-form attempts fail, and the
numeric groups are exactly the day, month and year values, so parse reduces
to the numeric tail on them. -/
theorem parse_strftime_eq_numBuild (y m d hh nn ss : Nat)
    (hy : y ≤ 9999) (hm : m ≤ 99) (hd : d ≤ 99) :
    parse_fecha_universal (strftime_dmy ⟨y, m, d, hh, nn, ss⟩) = numBuild d m y none := by
  have hslash : isDigitC '/' = false := by decide
  have htl : (strftime_dmy ⟨y, m, d, hh, nn, ss⟩).toList =
      [digitChar10 (d / 10), digitChar10 d, '/', digitChar10 (m / 10), digitChar10 m, '/',
       digitChar10 (y / 1000), digitChar10 (y / 100), digitChar10 (y / 10), digitChar10 y] := rfl
  have hclean : cleanFecha
      [digitChar10 (d / 10), digitChar10 d, '/', digitChar10 (m / 10), digitChar10 m, '/',
       digitChar10 (y / 1000), digitChar10 (y / 100), digitChar10 (y / 10), digitChar10 y] =
      [digitChar10 (d / 10), digitChar10 d, '/', digitChar10 (m / 10), digitChar10 m, '/',
       digitChar10 (y / 1000), digitChar10 (y / 100), digitChar10 (y / 10), digitChar10 y] := by
    refine cleanFecha_eq_self ?_ ?_ ?_ ?_ ?_
    · simp [pyLowerChar_eq_self_of_digit, isDigitC_digitChar10, pyLowerChar_slash]
    · simp [commaToSpace_eq_self_of_digit, isDigitC_digitChar10, commaToSpace_slash]
    · intro c hc
      injection hc with hc
      rw [← hc]
      exact isSpaceC_eq_false_of_digit (isDigitC_digitChar10 _)
    · intro c hc
      simp only [List.getLast?_cons_cons, List.getLast?_singleton, Option.some.injEq] at hc
      rw [← hc]
      exact isDigitC_digitChar10 _
    · simp only [List.chain'_cons, List.chain'_singleton, and_true]
      exact ⟨Or.inl (ne_space_of_digit (isDigitC_digitChar10 _)),
        Or.inl (ne_space_of_digit (isDigitC_digitChar10 _)), Or.inl slash_ne_space,
        Or.inl (ne_space_of_digit (isDigitC_digitChar10 _)),
        Or.inl (ne_space_of_digit (isDigitC_digitChar10 _)), Or.inl slash_ne_space,
        Or.inl (ne_space_of_digit (isDigitC_digitChar10 _)),
        Or.inl (ne_space_of_digit (isDigitC_digitChar10 _)),
        Or.inl (ne_space_of_digit (isDigitC_digitChar10 _))⟩
  have hiso : pyFromisoformat
      [digitChar10 (d / 10), digitChar10 d, '/', digitChar10 (m / 10), digitChar10 m, '/',
       digitChar10 (y / 1000), digitChar10 (y / 100), digitChar10 (y / 10), digitChar10 y] =
      none := by
    rw [pyFromisoformat_ten]
    rw [show isoDateVal (digitChar10 (d / 10)) (digitChar10 d) '/' (digitChar10 (m / 10))
        (digitChar10 m) '/' (digitChar10 (y / 1000)) (digitChar10 (y / 100))
        (digitChar10 (y / 10)) (digitChar10 y) = none from by simp [isoDateVal, hslash]]
  have hlong : searchLong
      [digitChar10 (d / 10), digitChar10 d, '/', digitChar10 (m / 10), digitChar10 m, '/',
       digitChar10 (y / 1000), digitChar10 (y / 100), digitChar10 (y / 10), digitChar10 y] =
      none := by
    refine searchLong_eq_none ?_
    intro c hc
    simp only [List.mem_cons, List.not_mem_nil, or_false] at hc
    rcases hc with rfl | rfl | rfl | rfl | rfl | rfl | rfl | rfl | rfl | rfl
    · exact isLetterES_eq_false_of_digit (isDigitC_digitChar10 _)
    · exact isLetterES_eq_false_of_digit (isDigitC_digitChar10 _)
    · decide
    · exact isLetterES_eq_false_of_digit (isDigitC_digitChar10 _)
    · exact isLetterES_eq_false_of_digit (isDigitC_digitChar10 _)
    · decide
    all_goals exact isLetterES_eq_false_of_digit (isDigitC_digitChar10 _)
  have hnum : searchNum
      [digitChar10 (d / 10), digitChar10 d, '/', digitChar10 (m / 10), digitChar10 m, '/',
       digitChar10 (y / 1000), digitChar10 (y / 100), digitChar10 (y / 10), digitChar10 y] =
      some (natOfDigits [digitChar10 (d / 10), digitChar10 d],
        natOfDigits [digitChar10 (m / 10), digitChar10 m],
        natOfDigits [digitChar10 (y / 1000), digitChar10 (y / 100), digitChar10 (y / 10),
          digitChar10 y], none) := by
    unfold searchNum
    rw [searchFrom_cons_eq, matchNumAt_ddmmyyyy (isDigitC_digitChar10 _)
      (isDigitC_digitChar10 _) (isDigitC_digitChar10 _) (isDigitC_digitChar10 _)
      (isDigitC_digitChar10 _) (isDigitC_digitChar10 _) (isDigitC_digitChar10 _)
      (isDigitC_digitChar10 _)]
  have hvd : natOfDigits [digitChar10 (d / 10), digitChar10 d] = d :=
    natOfDigits_pad2 (by omega)
  have hvm : natOfDigits [digitChar10 (m / 10), digitChar10 m] = m :=
    natOfDigits_pad2 (by omega)
  have hvy : natOfDigits [digitChar10 (y / 1000), digitChar10 (y / 100), digitChar10 (y / 10),
      digitChar10 y] = y := natOfDigits_pad4 hy
  unfold parse_fecha_universal
  rw [htl, hclean, hiso, hlong, hnum, hvd, hvm, hvy]

/-- C9 amended: formatting an InvoiceRecord date as dd/mm/yyyy for the
output CSV and re-parsing the column is a round trip exactly for four-digit
years: for calendar-valid dates with year 1000 to 9999 the same calendar
date comes back; for years 32 to 999 the re-parse raises an uncaught
ValueError from strptime; and for years 1 to 31 the re-parse succeeds but
silently shifts the year to 2000+YY. -/
theorem claim_C9_amended :
    (∀ y m d hh nn ss : Nat, 1000 ≤ y → y ≤ 9999 → 1 ≤ m → m ≤ 12 → 1 ≤ d →
        d ≤ daysInMonth y m →
        parse_fecha_universal (strftime_dmy ⟨y, m, d, hh, nn, ss⟩) =
          .ok (some ⟨y, m, d, 0, 0, 0⟩)) ∧
    (∀ y m d hh nn ss : Nat, 32 ≤ y → y ≤ 999 → 1 ≤ m → m ≤ 12 → 1 ≤ d →
        d ≤ daysInMonth y m →
        parse_fecha_universal (strftime_dmy ⟨y, m, d, hh, nn, ss⟩) = .error ()) ∧
    (∀ y m d hh nn ss : Nat, 1 ≤ y → y ≤ 31 → 1 ≤ m → m ≤ 12 → 1 ≤ d →
        d ≤ daysInMonth y m →
        parse_fecha_universal (strftime_dmy ⟨y, m, d, hh, nn, ss⟩) =
          .ok (some ⟨y + 2000, m, d, 0, 0, 0⟩)) := by
  refine ⟨?_, ?_, ?_⟩
  · intro y m d hh nn ss hy1 hy2 hm1 hm2 hd1 hd2
    have hd31 : d ≤ 31 := hd2.trans (daysInMonth_le_31 y m)
    rw [parse_strftime_eq_numBuild y m d hh nn ss (by omega) (by omega) (by omega)]
    unfold numBuild numAssign
    rw [if_neg (show ¬ 31 < d by omega), if_pos (show 31 < y by omega)]
    show (match pyStrptimeDMY d m y none with
          | some dt => (Except.ok (some dt) : Except Unit (Option DateTime))
          | none => .error ()) = .ok (some ⟨y, m, d, 0, 0, 0⟩)
    unfold pyStrptimeDMY
    rw [if_pos (⟨hd1, hd31, hm1, hm2, hy1, hy2, hd2⟩ :
      1 ≤ d ∧ d ≤ 31 ∧ 1 ≤ m ∧ m ≤ 12 ∧ 1000 ≤ y ∧ y ≤ 9999 ∧ d ≤ daysInMonth y m)]
  · intro y m d hh nn ss hy1 hy2 hm1 hm2 hd1 hd2
    have hd31 : d ≤ 31 := hd2.trans (daysInMonth_le_31 y m)
    rw [parse_strftime_eq_numBuild y m d hh nn ss (by omega) (by omega) (by omega)]
    unfold numBuild numAssign
    rw [if_neg (show ¬ 31 < d by omega), if_pos (show 31 < y by omega)]
    show (match pyStrptimeDMY d m y none with
          | some dt => (Except.ok (some dt) : Except Unit (Option DateTime))
          | none => .error ()) = .error ()
    unfold pyStrptimeDMY
    rw [if_neg (show ¬ (1 ≤ d ∧ d ≤ 31 ∧ 1 ≤ m ∧ m ≤ 12 ∧ 1000 ≤ y ∧ y ≤ 9999 ∧
      d ≤ daysInMonth y m) from fun hcon => absurd hcon.2.2.2.2.1 (by omega))]
  · intro y m d hh nn ss hy1 hy2 hm1 hm2 hd1 hd2
    have hd31 : d ≤ 31 := hd2.trans (daysInMonth_le_31 y m)
    have hdm : d ≤ daysInMonth (y + 2000) m := by
      rw [daysInMonth_add_2000]
      exact hd2
    rw [parse_strftime_eq_numBuild y m d hh nn ss (by omega) (by omega) (by omega)]
    unfold numBuild numAssign
    rw [if_neg (show ¬ 31 < d by omega), if_neg (show ¬ 31 < y by omega),
      if_pos (show y < 100 by omega)]
    show (match pyStrptimeDMY d m (y + 2000) none with
          | some dt => (Except.ok (some dt) : Except Unit (Option DateTime))
          | none => .error ()) = .ok (some ⟨y + 2000, m, d, 0, 0, 0⟩)
    unfold pyStrptimeDMY
    rw [if_pos (⟨hd1, hd31, hm1, hm2, by omega, by omega, hdm⟩ :
      1 ≤ d ∧ d ≤ 31 ∧ 1 ≤ m ∧ m ≤ 12 ∧ 1000 ≤ y + 2000 ∧ y + 2000 ≤ 9999 ∧
        d ≤ daysInMonth (y + 2000) m)]

/-- Witness for the amended C9: one concrete date in each year band. -/
theorem claim_C9_amended_witness :
    parse_fecha_universal (strftime_dmy ⟨2025, 11, 17, 0, 0, 0⟩) =
        .ok (some ⟨2025, 11, 17, 0, 0, 0⟩) ∧
      parse_fecha_universal (strftime_dmy ⟨45, 1, 14, 0, 0, 0⟩) = .error () ∧
      parse_fecha_universal (strftime_dmy ⟨20, 1, 14, 0, 0, 0⟩) =
        .ok (some ⟨20 + 2000, 1, 14, 0, 0, 0⟩) :=
  ⟨claim_C9_amended.1 2025 11 17 0 0 0 (by omega) (by omega) (by omega) (by omega) (by omega)
      (by decide),
   claim_C9_amended.2.1 45 1 14 0 0 0 (by omega) (by omega) (by omega) (by omega) (by omega)
      (by decide),
   claim_C9_amended.2.2 20 1 14 0 0 0 (by omega) (by omega) (by omega) (by omega) (by omega)
      (by decide)⟩
